import Mathlib

/-!
Verification of the Coerce actor runtime against its design specification.

The development shallowly embeds the three core subsystems:

* the actor lifecycle loop (src/coerce-rt/src/actor/lifecycle.rs),
* the remote client connection state machine
  (src/coerce/src/remote/net/client/send.rs and connect.rs),
* the cluster singleton proxy
  (src/coerce/src/remote/cluster/singleton/proxy/mod.rs).

Modelling conventions: machine bytes are Nat, byte vectors are lists of
Nat; the framed TCP sink is external, so the outcome of each sink send is
an oracle parameter (a Bool per attempt, or a function from attempt index
to Bool for loops); serialization is external, so a message is represented
by the Option result of its write_to_bytes call; a Rust function that can
panic (unwrap / expect on a value the environment controls) is embedded as
an Option-returning function where none models the panic.  Task spawning,
timers and log output have no observable effect on the state under
verification and are noted in comments where the source performs them.
-/

/-- Actor status as driven by the lifecycle loop
(src/coerce-rt/src/actor/lifecycle.rs, statuses imported from context.rs). -/
inductive ActorStatus where
  | Starting
  | Started
  | Stopping
  | Stopped
deriving DecidableEq, Repr

/-- Observable events of one run of the actor loop: hook invocations (with
the context status at the moment of the call), status writes, and message
handler invocations. -/
inductive LoopEv (M : Type) where
  | callStarted (status : ActorStatus)
  | setStatus (status : ActorStatus)
  | handleMsg (m : M)
  | callStopped (status : ActorStatus)
deriving DecidableEq, Repr

/-- The capabilities of a user actor: the started and stopped hooks and a
typed message handler, each receiving the actor value and the context
status and returning their updates (the only context field the lifecycle
inspects is the status). -/
structure ActorBehavior (A M : Type) where
  started : A → ActorStatus → A × ActorStatus
  stopped : A → ActorStatus → A × ActorStatus
  handle : A → ActorStatus → M → A × ActorStatus

/-- The message-draining cycle of actor_loop (lifecycle.rs lines 57-70):
while the mailbox yields a message, run its handler, then break if the
status is Stopping; on exit (break or mailbox closed, the closed mailbox
being the end of the list) force status to Stopping, call the stopped
hook, then set status to Stopped. -/
def actorLoopRun {A M : Type} (beh : ActorBehavior A M) :
    A → ActorStatus → List M → List (LoopEv M)
  | _, _, [] =>
      [LoopEv.setStatus ActorStatus.Stopping,
       LoopEv.callStopped ActorStatus.Stopping,
       LoopEv.setStatus ActorStatus.Stopped]
  | a, st, m :: rest =>
      if (beh.handle a st m).2 = ActorStatus.Stopping then
        [LoopEv.handleMsg m,
         LoopEv.setStatus ActorStatus.Stopping,
         LoopEv.callStopped ActorStatus.Stopping,
         LoopEv.setStatus ActorStatus.Stopped]
      else
        LoopEv.handleMsg m ::
          actorLoopRun beh (beh.handle a st m).1 (beh.handle a st m).2 rest

/-- The actor loop (lifecycle.rs lines 40-71): build a context with status
Starting, call the started hook, return at once if the hook set Stopping,
otherwise set status to Started and drain the mailbox. -/
def actor_loop {A M : Type} (beh : ActorBehavior A M) (a : A) (msgs : List M) :
    List (LoopEv M) :=
  if (beh.started a ActorStatus.Starting).2 = ActorStatus.Stopping then
    [LoopEv.callStarted ActorStatus.Starting]
  else
    LoopEv.callStarted ActorStatus.Starting ::
      LoopEv.setStatus ActorStatus.Started ::
      actorLoopRun beh (beh.started a ActorStatus.Starting).1 ActorStatus.Started msgs

/-- Handler of the built-in Stop message (lifecycle.rs lines 28-38): sets
the context status to Stopping and returns Stopping as the message result.
The pair is (new context status, handler result). -/
def handleStop (_st : ActorStatus) : ActorStatus × ActorStatus :=
  (ActorStatus.Stopping, ActorStatus.Stopping)

/-- Handler of the built-in Status message (lifecycle.rs lines 18-26):
returns the current context status without mutation. -/
def handleStatus (st : ActorStatus) : ActorStatus × ActorStatus :=
  (st, st)

/-- A mailbox entry for an actor that, besides its user messages, receives
the built-in Status and Stop messages of lifecycle.rs. -/
inductive BuiltinMsg (M : Type) where
  | user (m : M)
  | statusMsg
  | stop
deriving DecidableEq, Repr

/-- Extends a user behavior with the built-in Status and Stop handlers
that lifecycle.rs implements for every actor. -/
def withBuiltins {A M : Type} (beh : ActorBehavior A M) :
    ActorBehavior A (BuiltinMsg M) where
  started := beh.started
  stopped := beh.stopped
  handle := fun a st m =>
    match m with
    | BuiltinMsg.user m => beh.handle a st m
    | BuiltinMsg.statusMsg => (a, (handleStatus st).1)
    | BuiltinMsg.stop => (a, (handleStop st).1)

/-- Recognizes a started-hook invocation event. -/
def isStartedEv {M : Type} : LoopEv M → Bool
  | LoopEv.callStarted _ => true
  | _ => false

/-- Recognizes a stopped-hook invocation event. -/
def isStoppedEv {M : Type} : LoopEv M → Bool
  | LoopEv.callStopped _ => true
  | _ => false

/-- The messages a loop trace handled, in order. -/
def handledMsgs {M : Type} (t : List (LoopEv M)) : List M :=
  t.filterMap fun e =>
    match e with
    | LoopEv.handleMsg m => some m
    | _ => none

/-- The last three elements of a list (shorter lists are returned whole). -/
def lastThree {α : Type} (t : List α) : List α :=
  (t.reverse.take 3).reverse

/-- A byte vector. -/
abbrev Bytes := List Nat

/-- Client errors (src/coerce/src/remote/net/client): Encoding for
serialization failure, StreamErr for a framed sink I/O failure. -/
inductive RemoteClientErr where
  | Encoding
  | StreamErr
deriving DecidableEq, Repr

/-- Handshake status of a connection; the acknowledgement payload is kept
opaque as a Nat. -/
inductive HandshakeStatus where
  | None
  | Acknowledged (ack : Nat)
deriving DecidableEq, Repr

/-- The per-connection state. The framed sink, the receive task handle and
the ping timer are external resources without observable state here; the
sink behaviour enters through the send oracle of each operation. -/
structure ConnectionState where
  identity : Nat
  handshake : HandshakeStatus
deriving DecidableEq, Repr

/-- Per-peer client state (src/coerce/src/remote/net/client). -/
inductive ClientState where
  | Idle (connection_attempts : Nat)
  | Quarantined (since : Nat) (connection_attempts : Nat)
  | Connected (state : ConnectionState)
deriving DecidableEq, Repr

/-- The RemoteClient actor. Its struct declaration is not among the staged
files; the fields are reconstructed from their uses in send.rs and
connect.rs: the optional client state, the FIFO write buffer with its
running byte total, and the two callback vectors (callbacks are opaque
Nat identifiers). -/
structure RemoteClient where
  addr : String
  state : Option ClientState
  write_buffer : List Bytes
  write_buffer_bytes_total : Nat
  on_identified_callbacks : List Nat
  on_handshake_ack_callbacks : List Nat
deriving DecidableEq, Repr

/-- Sum of the lengths of the buffered entries. -/
def sumLen (l : List Bytes) : Nat :=
  (l.map List.length).sum

/-- The documented buffer invariant: the running total equals the sum of
the buffered entry lengths. -/
def writeBufferInv (c : RemoteClient) : Prop :=
  c.write_buffer_bytes_total = sumLen c.write_buffer

/-- RemoteClient::buffer_message (send.rs lines 55-58): add the entry
length to the running total and push the entry to the back of the FIFO. -/
def RemoteClient.buffer_message (c : RemoteClient) (message_bytes : Bytes) :
    RemoteClient :=
  { c with
    write_buffer_bytes_total := c.write_buffer_bytes_total + message_bytes.length,
    write_buffer := c.write_buffer ++ [message_bytes] }

/-- The state transition of the Disconnected handler (connect.rs lines
214-244), factored over the three ClientState arms.  In the Connected arm
the source also awaits state.disconnected(), which aborts the receive task
and cancels the ping timer - external resources not modelled. -/
def disconnectedTransition : ClientState → ClientState
  | ClientState.Idle connection_attempts =>
      ClientState.Idle (connection_attempts + 1)
  | ClientState.Quarantined since connection_attempts =>
      ClientState.Quarantined since (connection_attempts + 1)
  | ClientState.Connected _ =>
      ClientState.Idle 1

/-- Handler of Disconnected (connect.rs lines 202-254): take the state
(unwrap panics when it is absent, modelled as none), apply the transition
and store it back.  The source then spawns a delayed task that re-sends
Connect after RECONNECT_DELAY - an external effect. -/
def handleDisconnected (c : RemoteClient) : Option RemoteClient :=
  match c.state with
  | none => none
  | some s => some { c with state := some (disconnectedTransition s) }

/-- The flush loop of RemoteClient::flush_buffered_writes (send.rs lines
42-52): pop the front entry, attempt the sink send (the oracle net gives
the outcome of the attempt with the given index), on success subtract the
length from the running total and continue, on failure push the entry back
to the front and stop.  Returns the remaining buffer, the new total and
the entries sent, in send order. -/
def flushLoop (net : Nat → Bool) : Nat → List Bytes → Nat →
    List Bytes × Nat × List Bytes
  | _, [], total => ([], total, [])
  | i, b :: rest, total =>
      if net i then
        let r := flushLoop net (i + 1) rest (total - b.length)
        (r.1, r.2.1, b :: r.2.2)
      else
        (b :: rest, total, [])

/-- The number of leading buffer entries the flush loop sends before the
first failing sink attempt: the length of the run of true values of the
oracle starting at the given index, capped by the buffer length. -/
def flushCount (net : Nat → Bool) : Nat → List Bytes → Nat
  | _, [] => 0
  | i, _ :: rest => if net i then flushCount net (i + 1) rest + 1 else 0

/-- RemoteClient::flush_buffered_writes (send.rs lines 30-53): a no-op
unless the state is Connected; otherwise run the flush loop over the write
buffer.  The second component is the list of entries sent to the sink. -/
def RemoteClient.flush_buffered_writes (c : RemoteClient) (net : Nat → Bool) :
    RemoteClient × List Bytes :=
  match c.state with
  | some (ClientState.Connected _) =>
      let r := flushLoop net 0 c.write_buffer c.write_buffer_bytes_total
      ({ c with write_buffer := r.1, write_buffer_bytes_total := r.2.1 }, r.2.2)
  | _ => (c, [])

/-- RemoteClient::write (send.rs lines 60-116).  The parameter wtb is the
result of message.write_to_bytes(); netOk is the outcome of the single
sink send attempted in the Connected arm (the framed sink is external; its
only error is StreamErr, see write_bytes in send.rs lines 119-127).  When
serialization yields no bytes the handler returns Err(Encoding).  With
bytes in hand it unwraps self.state (none models the panic on an absent
state); in Idle and Quarantined it buffers the bytes, in Connected it
attempts the send, and on a stream error it buffers the bytes and runs the
Disconnected handler; every such path returns Ok. -/
def RemoteClient.write (c : RemoteClient) (wtb : Option Bytes) (netOk : Bool) :
    Option (RemoteClient × Except RemoteClientErr Unit) :=
  match wtb with
  | none => some (c, Except.error RemoteClientErr.Encoding)
  | some bytes =>
      match c.state with
      | none => none
      | some s =>
          match s with
          | ClientState.Idle _ | ClientState.Quarantined _ _ =>
              some (c.buffer_message bytes, Except.ok ())
          | ClientState.Connected _ =>
              if netOk then
                some (c, Except.ok ())
              else
                match handleDisconnected (c.buffer_message bytes) with
                | none => none
                | some c2 => some (c2, Except.ok ())

/-- Handler of Connect (connect.rs lines 88-126).  The parameter conn is
the result of RemoteClient::connect, a TCP dial plus identity wait whose
outcome the environment determines.  On success the handler resolves every
on_identified callback (popping all of them), submits ClientConnected to
the registry (an external actor), installs Connected, and flushes the
write buffer; on failure it resolves the callbacks with none and runs the
Disconnected handler (whose unwrap panics on an absent state, modelled as
none).  The second component is the list of buffer entries flushed. -/
def handleConnect (c : RemoteClient) (conn : Option ConnectionState)
    (net : Nat → Bool) : Option (RemoteClient × List Bytes) :=
  match conn with
  | some cs =>
      let c2 := { c with
        on_identified_callbacks := [],
        state := some (ClientState.Connected cs) }
      some (c2.flush_buffered_writes net)
  | none =>
      match handleDisconnected { c with on_identified_callbacks := [] } with
      | none => none
      | some c2 => some (c2, [])

/-- A remote node record (src/coerce/src/remote/cluster/node.rs, as used
by the BeginHandshake handler). -/
structure RemoteNode where
  id : Nat
  addr : String
  tag : String
  node_started_at : Option Nat
deriving DecidableEq, Repr

/-- The BeginHandshake message: the seed node list serialized into the
handshake frame and the completion callback of the caller (an opaque
identifier). -/
structure BeginHandshakeMsg where
  seed_nodes : List RemoteNode
  on_handshake_complete : Nat
deriving DecidableEq, Repr

/-- Handler of BeginHandshake (connect.rs lines 129-176): return at once
unless the state is Connected; otherwise serialize the handshake frame (hb
is the write_to_bytes result of the SessionEvent::Handshake built from the
seed nodes - the unwrap on it panics when it is none), send it through the
framed sink (netOk is the outcome; the expect on the send panics on a
stream error), and push the completion callback onto
on_handshake_ack_callbacks.  A returned none models a panic; the second
component lists the frames written to the sink. -/
def handleBeginHandshake (c : RemoteClient) (msg : BeginHandshakeMsg)
    (hb : Option Bytes) (netOk : Bool) :
    Option (RemoteClient × List Bytes) :=
  match c.state with
  | some (ClientState.Connected _) =>
      match hb with
      | none => none
      | some bytes =>
          if netOk then
            some ({ c with
              on_handshake_ack_callbacks :=
                c.on_handshake_ack_callbacks ++ [msg.on_handshake_complete] },
              [bytes])
          else
            none
  | _ => some (c, [])

/-- Handler of HandshakeAcknowledge (connect.rs lines 178-199): when
Connected, record the acknowledgement in the handshake status and fulfill
every queued callback, popping from the back of the vector (the second
component lists the callbacks fulfilled, in fulfillment order); in any
other state log a warning and discard. -/
def handleHandshakeAcknowledge (c : RemoteClient) (ack : Nat) :
    RemoteClient × List Nat :=
  match c.state with
  | some (ClientState.Connected cs) =>
      ({ c with
          state := some (ClientState.Connected
            { cs with handshake := HandshakeStatus.Acknowledged ack }),
          on_handshake_ack_callbacks := [] },
        c.on_handshake_ack_callbacks.reverse)
  | _ => (c, [])

/-- True when the client state is Connected. -/
def clientIsConnected (c : RemoteClient) : Bool :=
  match c.state with
  | some (ClientState.Connected _) => true
  | _ => false

/-- Singleton proxy state
(src/coerce/src/remote/cluster/singleton/proxy/mod.rs lines 9-17);
buffered trampolines are opaque messages of type M, actor references are
opaque Nat identifiers. -/
inductive ProxyState (M : Type) where
  | Buffered (request_queue : List M)
  | Active (actor_ref : Nat)
deriving DecidableEq, Repr

/-- ProxyState::is_active (proxy/mod.rs lines 33-37). -/
def ProxyState.is_active {M : Type} : ProxyState M → Bool
  | ProxyState.Active _ => true
  | _ => false

/-- The proxy actor (proxy/mod.rs lines 19-21). -/
structure Proxy (M : Type) where
  state : ProxyState M
deriving DecidableEq, Repr

/-- Handler of SingletonStarted (proxy/mod.rs lines 56-78): when Buffered,
pop the queue front to back, sending each trampoline to the new reference;
then, in every case, set the state to Active with the new reference.  The
second component is the list of (reference, message) deliveries. -/
def handleSingletonStarted {M : Type} (p : Proxy M) (actor_ref : Nat) :
    Proxy M × List (Nat × M) :=
  match p.state with
  | ProxyState.Buffered request_queue =>
      (⟨ProxyState.Active actor_ref⟩, request_queue.map fun m => (actor_ref, m))
  | ProxyState.Active _ =>
      (⟨ProxyState.Active actor_ref⟩, [])

/-- Handler of SingletonStopping (proxy/mod.rs lines 80-91): replace the
state by an empty Buffered queue only when it is Active. -/
def handleSingletonStopping {M : Type} (p : Proxy M) : Proxy M :=
  if p.state.is_active then ⟨ProxyState.Buffered []⟩ else p

/-- Modelled from the spec: the proxy send path lives in
src/coerce/src/remote/cluster/singleton/proxy/send.rs, which is not among
the staged files.  Spec 4.3: while Buffered each inbound send is appended
to the queue; while Active sends are routed directly to the actor
reference. -/
def proxySend {M : Type} (p : Proxy M) (m : M) : Proxy M × List (Nat × M) :=
  match p.state with
  | ProxyState.Buffered request_queue =>
      (⟨ProxyState.Buffered (request_queue ++ [m])⟩, [])
  | ProxyState.Active actor_ref =>
      (p, [(actor_ref, m)])

/-- An event in the life of the proxy: an inbound send, a SingletonStarted
notification, or a SingletonStopping notification. -/
inductive ProxyEvent (M : Type) where
  | send (m : M)
  | started (actor_ref : Nat)
  | stopping

/-- One proxy step: dispatch an event to its handler, collecting the
deliveries it performs. -/
def proxyStep {M : Type} (p : Proxy M) : ProxyEvent M → Proxy M × List (Nat × M)
  | ProxyEvent.send m => proxySend p m
  | ProxyEvent.started r => handleSingletonStarted p r
  | ProxyEvent.stopping => (handleSingletonStopping p, [])

/-- Run the proxy over a sequence of events, concatenating deliveries. -/
def proxyRun {M : Type} (p : Proxy M) : List (ProxyEvent M) → Proxy M × List (Nat × M)
  | [] => (p, [])
  | e :: rest =>
      let r := proxyStep p e
      let r2 := proxyRun r.1 rest
      (r2.1, r.2 ++ r2.2)

/-- Dropping the head of a list keeps the last three elements when at
least three remain. -/
theorem lastThree_cons {α : Type} (x : α) (l : List α) (h : 3 ≤ l.length) :
    lastThree (x :: l) = lastThree l := by
  unfold lastThree
  rw [List.reverse_cons, List.take_append_of_le_length (by simpa using h)]

/-- Structure of every run of the message-draining cycle: it never calls
the started hook, it calls the stopped hook exactly once, and it ends by
forcing status Stopping, calling the stopped hook, and setting status
Stopped. -/
theorem actorLoopRun_spec {A M : Type} (beh : ActorBehavior A M) :
    ∀ (msgs : List M) (a : A) (st : ActorStatus),
      3 ≤ (actorLoopRun beh a st msgs).length ∧
      (actorLoopRun beh a st msgs).countP isStartedEv = 0 ∧
      (actorLoopRun beh a st msgs).countP isStoppedEv = 1 ∧
      lastThree (actorLoopRun beh a st msgs) =
        [LoopEv.setStatus ActorStatus.Stopping,
         LoopEv.callStopped ActorStatus.Stopping,
         LoopEv.setStatus ActorStatus.Stopped] := by
  intro msgs
  induction msgs with
  | nil =>
      intro a st
      refine ⟨by simp [actorLoopRun], by rfl, by rfl, by rfl⟩
  | cons m rest ih =>
      intro a st
      by_cases h : (beh.handle a st m).2 = ActorStatus.Stopping
      · rw [actorLoopRun, if_pos h]
        refine ⟨by simp, by rfl, by rfl, by rfl⟩
      · rw [actorLoopRun, if_neg h]
        obtain ⟨hlen, h0, h1, h3⟩ := ih (beh.handle a st m).1 (beh.handle a st m).2
        refine ⟨?_, ?_, ?_, ?_⟩
        · exact le_trans hlen (by simp)
        · simpa [List.countP_cons, isStartedEv] using h0
        · simpa [List.countP_cons, isStoppedEv] using h1
        · rw [lastThree_cons _ _ hlen]; exact h3

/-- C1: for every actor run through the actor loop, the started hook is
invoked exactly once, as the first event, with status Starting; if the
hook leaves status Stopping the loop exits at once and the stopped hook
is never called; otherwise the status becomes Started, and on loop exit
the loop forces status Stopping, calls the stopped hook exactly once,
then sets status Stopped. -/
theorem actor_loop_lifecycle {A M : Type} (beh : ActorBehavior A M) (a : A)
    (msgs : List M) :
    (actor_loop beh a msgs).countP isStartedEv = 1 ∧
    (actor_loop beh a msgs).head? =
      some (LoopEv.callStarted ActorStatus.Starting) ∧
    ((beh.started a ActorStatus.Starting).2 = ActorStatus.Stopping →
      actor_loop beh a msgs = [LoopEv.callStarted ActorStatus.Starting] ∧
      (actor_loop beh a msgs).countP isStoppedEv = 0) ∧
    ((beh.started a ActorStatus.Starting).2 ≠ ActorStatus.Stopping →
      (actor_loop beh a msgs).take 2 =
        [LoopEv.callStarted ActorStatus.Starting,
         LoopEv.setStatus ActorStatus.Started] ∧
      (actor_loop beh a msgs).countP isStoppedEv = 1 ∧
      lastThree (actor_loop beh a msgs) =
        [LoopEv.setStatus ActorStatus.Stopping,
         LoopEv.callStopped ActorStatus.Stopping,
         LoopEv.setStatus ActorStatus.Stopped]) := by
  by_cases h : (beh.started a ActorStatus.Starting).2 = ActorStatus.Stopping
  · rw [actor_loop, if_pos h]
    exact ⟨by rfl, by rfl, fun _ => ⟨by rfl, by rfl⟩, fun hc => absurd h hc⟩
  · rw [actor_loop, if_neg h]
    obtain ⟨hlen, h0, h1, h3⟩ :=
      actorLoopRun_spec beh msgs (beh.started a ActorStatus.Starting).1
        ActorStatus.Started
    refine ⟨?_, by rfl, fun hc => absurd hc h, fun _ => ⟨by rfl, ?_, ?_⟩⟩
    · simpa [List.countP_cons, isStartedEv] using h0
    · simpa [List.countP_cons, isStoppedEv] using h1
    · rw [lastThree_cons _ _ (le_trans hlen (by simp)),
        lastThree_cons _ _ hlen]
      exact h3

/-- When every message of the prefix leaves the status off Stopping, the
draining cycle handles the whole prefix, then the Stop message, and
nothing after it. -/
theorem actorLoopRun_drain {A M : Type} (beh : ActorBehavior A M) :
    ∀ (pre : List M),
      (∀ (a : A) (st : ActorStatus) (m : M), m ∈ pre →
        st ≠ ActorStatus.Stopping →
        (beh.handle a st m).2 ≠ ActorStatus.Stopping) →
      ∀ (post : List (BuiltinMsg M)) (a : A) (st : ActorStatus),
        st ≠ ActorStatus.Stopping →
        handledMsgs (actorLoopRun (withBuiltins beh) a st
            (pre.map BuiltinMsg.user ++ BuiltinMsg.stop :: post)) =
          pre.map BuiltinMsg.user ++ [BuiltinMsg.stop] := by
  intro pre
  induction pre with
  | nil =>
      intro _ post a st _
      rw [List.map_nil, List.nil_append, actorLoopRun, if_pos (by rfl)]
      rfl
  | cons m rest ih =>
      intro hpre post a st hst
      have hm : ((withBuiltins beh).handle a st (BuiltinMsg.user m)).2 ≠
          ActorStatus.Stopping :=
        hpre a st m (List.mem_cons_self m rest) hst
      rw [List.map_cons, List.cons_append, actorLoopRun, if_neg hm]
      have := ih (fun a2 st2 m2 hmem hst2 =>
          hpre a2 st2 m2 (List.mem_cons_of_mem m hmem) hst2)
        post (beh.handle a st m).1 (beh.handle a st m).2 hm
      simpa [handledMsgs] using this

/-- C2: the built-in Stop handler sets status Stopping and returns
Stopping, and in a mailbox of the form pre ++ Stop :: post, where the
actor starts normally and no message of pre requests stop, the loop
handles exactly the messages of pre, in order, then Stop, and never any
message enqueued after Stop. -/
theorem stop_message_drains_mailbox {A M : Type} (beh : ActorBehavior A M)
    (a : A) (pre : List M) (post : List (BuiltinMsg M))
    (hstart : (beh.started a ActorStatus.Starting).2 ≠ ActorStatus.Stopping)
    (hpre : ∀ (a2 : A) (st : ActorStatus) (m : M), m ∈ pre →
      st ≠ ActorStatus.Stopping →
      (beh.handle a2 st m).2 ≠ ActorStatus.Stopping) :
    handledMsgs (actor_loop (withBuiltins beh) a
        (pre.map BuiltinMsg.user ++ BuiltinMsg.stop :: post)) =
      pre.map BuiltinMsg.user ++ [BuiltinMsg.stop] ∧
    (∀ st, handleStop st = (ActorStatus.Stopping, ActorStatus.Stopping)) := by
  constructor
  · have hstart2 : ((withBuiltins beh).started a ActorStatus.Starting).2 ≠
        ActorStatus.Stopping := hstart
    rw [actor_loop, if_neg hstart2]
    have := actorLoopRun_drain beh pre hpre post
      (beh.started a ActorStatus.Starting).1 ActorStatus.Started (by decide)
    simpa [handledMsgs] using this
  · intro st
    rfl

/-- Summing entry lengths distributes over append. -/
theorem sumLen_append (a b : List Bytes) : sumLen (a ++ b) = sumLen a + sumLen b := by
  simp [sumLen]

/-- Characterization of the flush loop: it sends exactly the first
flushCount entries of the buffer in order, leaves the rest in place (the
entry whose send failed back at the front), and subtracts the sent
lengths from the running total. -/
theorem flushLoop_eq (net : Nat → Bool) :
    ∀ (buf : List Bytes) (i total : Nat),
      flushLoop net i buf total =
        (buf.drop (flushCount net i buf),
         total - sumLen (buf.take (flushCount net i buf)),
         buf.take (flushCount net i buf)) := by
  intro buf
  induction buf with
  | nil => intro i total; simp [flushLoop, flushCount, sumLen]
  | cons b rest ih =>
      intro i total
      by_cases h : net i
      · rw [flushLoop, if_pos h, flushCount, if_pos h, ih (i + 1) (total - b.length)]
        simp [sumLen, Nat.sub_sub]
      · rw [flushLoop, if_neg h, flushCount, if_neg h]
        simp [sumLen]

/-- The flush loop never sends more entries than the buffer holds. -/
theorem flushCount_le (net : Nat → Bool) :
    ∀ (buf : List Bytes) (i : Nat), flushCount net i buf ≤ buf.length := by
  intro buf
  induction buf with
  | nil => intro i; simp [flushCount]
  | cons b rest ih =>
      intro i
      rw [flushCount]
      by_cases h : net i
      · simpa [h] using ih (i + 1)
      · simp [h]

/-- When the flush loop stops short of the whole buffer, the sink attempt
for the first remaining entry failed. -/
theorem flushCount_fail (net : Nat → Bool) :
    ∀ (buf : List Bytes) (i : Nat),
      flushCount net i buf < buf.length →
      net (i + flushCount net i buf) = false := by
  intro buf
  induction buf with
  | nil => intro i h; simp [flushCount] at h
  | cons b rest ih =>
      intro i h
      by_cases hn : net i
      · rw [flushCount, if_pos hn] at h ⊢
        have hr := ih (i + 1) (by simpa using Nat.lt_of_succ_lt_succ (by simpa using h))
        have e : i + (flushCount net (i + 1) rest + 1) =
            (i + 1) + flushCount net (i + 1) rest := by omega
        rw [e]
        exact hr
      · rw [flushCount, if_neg hn]
        simpa using hn

/-- C4: the write buffer is flushed only on the successful Connect path,
after the new Connected state is installed; the flush pops entries in
FIFO order, sends exactly the longest sendable prefix, pushes the failed
entry back to the front, halting there, and so preserves the relative
order of all buffered entries; flushing is a no-op in Idle, Quarantined
or stateless clients, and neither the Disconnected handler nor write
removes buffered entries. -/
theorem flush_buffered_writes_fifo (net : Nat → Bool) (buf : List Bytes)
    (total : Nat) (c : RemoteClient) (cs : ConnectionState)
    (n since m : Nat) (wtb : Option Bytes) (netOk : Bool) :
    flushLoop net 0 buf total =
      (buf.drop (flushCount net 0 buf),
       total - sumLen (buf.take (flushCount net 0 buf)),
       buf.take (flushCount net 0 buf)) ∧
    flushCount net 0 buf ≤ buf.length ∧
    (flushCount net 0 buf < buf.length → net (flushCount net 0 buf) = false) ∧
    ({ c with state := some (ClientState.Idle n) }
        : RemoteClient).flush_buffered_writes net =
      ({ c with state := some (ClientState.Idle n) }, []) ∧
    ({ c with state := some (ClientState.Quarantined since m) }
        : RemoteClient).flush_buffered_writes net =
      ({ c with state := some (ClientState.Quarantined since m) }, []) ∧
    ({ c with state := none } : RemoteClient).flush_buffered_writes net =
      ({ c with state := none }, []) ∧
    handleConnect c (some cs) net =
      some (({ c with
          on_identified_callbacks := []
          state := some (ClientState.Connected cs) }
          : RemoteClient).flush_buffered_writes net) ∧
    (handleDisconnected c).map RemoteClient.write_buffer =
      c.state.map (fun _ => c.write_buffer) ∧
    (((c.write wtb netOk).map Prod.fst).getD c).write_buffer.take
        c.write_buffer.length = c.write_buffer := by
  refine ⟨flushLoop_eq net buf 0 total, flushCount_le net buf 0,
    fun hlt => by simpa using flushCount_fail net buf 0 hlt,
    rfl, rfl, rfl, rfl, ?_, ?_⟩
  · rcases hs : c.state with _ | s
    · simp [handleDisconnected, hs]
    · simp [handleDisconnected, hs]
  · rcases wtb with _ | bytes
    · simp [RemoteClient.write]
    · rcases hs : c.state with _ | s
      · simp [RemoteClient.write, hs]
      · cases s with
        | Idle k =>
            simp [RemoteClient.write, hs, RemoteClient.buffer_message,
              List.take_left]
        | Quarantined a b =>
            simp [RemoteClient.write, hs, RemoteClient.buffer_message,
              List.take_left]
        | Connected cc =>
            cases netOk with
            | true => simp [RemoteClient.write, hs]
            | false =>
                simp [RemoteClient.write, hs, RemoteClient.buffer_message,
                  handleDisconnected, disconnectedTransition, List.take_left]

/-- C5: the running byte total equals the sum of the buffered entry
lengths, and this invariant is preserved by buffer_message, by
flush_buffered_writes (which subtracts only on successful send), and by
write on every non-panicking path. -/
theorem write_buffer_bytes_total_invariant (c : RemoteClient) (bytes : Bytes)
    (net : Nat → Bool) (wtb : Option Bytes) (netOk : Bool)
    (h : writeBufferInv c) :
    writeBufferInv (c.buffer_message bytes) ∧
    writeBufferInv (c.flush_buffered_writes net).1 ∧
    writeBufferInv (((c.write wtb netOk).map Prod.fst).getD c) := by
  have hbuf : ∀ b : Bytes, writeBufferInv (c.buffer_message b) := by
    intro b
    rw [writeBufferInv] at h
    simp [writeBufferInv, RemoteClient.buffer_message, sumLen_append, sumLen, h]
  refine ⟨hbuf bytes, ?_, ?_⟩
  · rcases hs : c.state with _ | s
    · simpa [RemoteClient.flush_buffered_writes, hs] using h
    · cases s with
      | Idle k => simpa [RemoteClient.flush_buffered_writes, hs] using h
      | Quarantined x y => simpa [RemoteClient.flush_buffered_writes, hs] using h
      | Connected cc =>
          have hsplit :
              sumLen (c.write_buffer.take (flushCount net 0 c.write_buffer)) +
                sumLen (c.write_buffer.drop (flushCount net 0 c.write_buffer)) =
              sumLen c.write_buffer := by
            rw [← sumLen_append, List.take_append_drop]
          rw [writeBufferInv] at h
          simp [RemoteClient.flush_buffered_writes, hs, flushLoop_eq,
            writeBufferInv]
          omega
  · rcases wtb with _ | b
    · simpa [RemoteClient.write] using h
    · rcases hs : c.state with _ | s
      · simpa [RemoteClient.write, hs] using h
      · cases s with
        | Idle k => simpa [RemoteClient.write, hs] using hbuf b
        | Quarantined x y => simpa [RemoteClient.write, hs] using hbuf b
        | Connected cc =>
            cases netOk with
            | true => simpa [RemoteClient.write, hs] using h
            | false =>
                have hb := hbuf b
                rw [writeBufferInv] at hb
                simp [RemoteClient.write, hs, handleDisconnected,
                  RemoteClient.buffer_message, disconnectedTransition,
                  writeBufferInv] at hb ⊢
                exact hb

/-- C3: write returns Err Encoding exactly when serialization yields no
bytes, and returns Ok in every other case: in Idle and Quarantined the
bytes are placed in the write buffer, and a stream error while Connected
buffers the bytes and is absorbed by the Disconnected transition rather
than surfaced. -/
theorem write_encoding_iff (c : RemoteClient) (wtb : Option Bytes)
    (netOk : Bool) (bytes : Bytes) (n since m : Nat) (cs : ConnectionState)
    (h : c.state.isSome = true) :
    (c.write wtb netOk).map Prod.snd =
      some (if wtb.isSome then Except.ok ()
            else Except.error RemoteClientErr.Encoding) ∧
    (c.state = some (ClientState.Idle n) →
      c.write (some bytes) netOk = some (c.buffer_message bytes, Except.ok ())) ∧
    (c.state = some (ClientState.Quarantined since m) →
      c.write (some bytes) netOk = some (c.buffer_message bytes, Except.ok ())) ∧
    (c.state = some (ClientState.Connected cs) →
      c.write (some bytes) false =
        some ({ c.buffer_message bytes with state := some (ClientState.Idle 1) },
          Except.ok ())) := by
  obtain ⟨s, hs⟩ := Option.isSome_iff_exists.mp h
  refine ⟨?_, ?_, ?_, ?_⟩
  · rcases wtb with _ | b
    · simp [RemoteClient.write]
    · cases s with
      | Idle k => simp [RemoteClient.write, hs]
      | Quarantined x y => simp [RemoteClient.write, hs]
      | Connected cc =>
          cases netOk with
          | true => simp [RemoteClient.write, hs]
          | false =>
              simp [RemoteClient.write, hs, handleDisconnected,
                RemoteClient.buffer_message, disconnectedTransition]
  · intro hI
    simp [RemoteClient.write, hI]
  · intro hQ
    simp [RemoteClient.write, hQ]
  · intro hC
    simp [RemoteClient.write, hC, handleDisconnected,
      RemoteClient.buffer_message, disconnectedTransition]

/-- Tag of a ClientState variant (0 for Idle, 1 for Quarantined, 2 for
Connected). -/
def clientStateTag : ClientState → Nat
  | ClientState.Idle _ => 0
  | ClientState.Quarantined _ _ => 1
  | ClientState.Connected _ => 2

/-- The connection_attempts counter of a client state (Connected carries
none; it reads as 0). -/
def connectionAttempts : ClientState → Nat
  | ClientState.Idle connection_attempts => connection_attempts
  | ClientState.Quarantined _ connection_attempts => connection_attempts
  | ClientState.Connected _ => 0

/-- C8: the Disconnected handler maps Idle n to Idle (n+1), Quarantined to
Quarantined with one more attempt, and Connected to Idle 1; handling
Disconnected twice therefore lands in the same state variant as handling
it once, with exactly one further increment of connection_attempts. -/
theorem disconnected_twice_increments_attempts (s : ClientState)
    (n since m : Nat) (cs : ConnectionState) (c : RemoteClient) :
    disconnectedTransition (ClientState.Idle n) = ClientState.Idle (n + 1) ∧
    disconnectedTransition (ClientState.Quarantined since m) =
      ClientState.Quarantined since (m + 1) ∧
    disconnectedTransition (ClientState.Connected cs) = ClientState.Idle 1 ∧
    clientStateTag (disconnectedTransition (disconnectedTransition s)) =
      clientStateTag (disconnectedTransition s) ∧
    connectionAttempts (disconnectedTransition (disconnectedTransition s)) =
      connectionAttempts (disconnectedTransition s) + 1 ∧
    handleDisconnected { c with state := some s } =
      some { c with state := some (disconnectedTransition s) } := by
  refine ⟨rfl, rfl, rfl, ?_, ?_, rfl⟩ <;> cases s <;> rfl

/-- Sends processed while the proxy is Active are routed one by one to the
active reference, in order. -/
theorem proxyRun_active {M : Type} (r : Nat) :
    ∀ ms : List M,
      proxyRun (⟨ProxyState.Active r⟩ : Proxy M) (ms.map ProxyEvent.send) =
        (⟨ProxyState.Active r⟩, ms.map fun m => (r, m)) := by
  intro ms
  induction ms with
  | nil => rfl
  | cons m rest ih => simp [proxyRun, proxyStep, proxySend, ih]

/-- C6: the singleton proxy never discards a buffered request: on
SingletonStarted while Buffered the whole queue is drained FIFO to the
new reference before the state becomes Active, SingletonStopping replaces
the state by an empty Buffered queue only when Active (leaving a Buffered
queue untouched), and across an Active episode the deliveries are exactly
the buffered prefix, in arrival order, followed by the messages sent
while Active. -/
theorem singleton_proxy_never_drops {M : Type} (q ms : List M) (r : Nat)
    (m0 : M) :
    proxyRun (⟨ProxyState.Buffered q⟩ : Proxy M)
        (ProxyEvent.started r :: ms.map ProxyEvent.send) =
      (⟨ProxyState.Active r⟩, (q ++ ms).map fun m => (r, m)) ∧
    handleSingletonStarted (⟨ProxyState.Buffered q⟩ : Proxy M) r =
      (⟨ProxyState.Active r⟩, q.map fun m => (r, m)) ∧
    handleSingletonStopping (⟨ProxyState.Active r⟩ : Proxy M) =
      ⟨ProxyState.Buffered []⟩ ∧
    handleSingletonStopping (⟨ProxyState.Buffered q⟩ : Proxy M) =
      ⟨ProxyState.Buffered q⟩ ∧
    proxySend (⟨ProxyState.Buffered q⟩ : Proxy M) m0 =
      (⟨ProxyState.Buffered (q ++ [m0])⟩, []) := by
  refine ⟨?_, rfl, rfl, rfl, rfl⟩
  simp [proxyRun, proxyStep, handleSingletonStarted, proxyRun_active]

/-- A sample connection state for concrete instantiations. -/
def csSample : ConnectionState :=
  { identity := 0, handshake := HandshakeStatus.None }

/-- A Connected client that already holds one buffered entry (reachable:
a flush halted by a sink error leaves a Connected client with a nonempty
buffer, since flush_buffered_writes breaks without scheduling
Disconnected). -/
def clientConnectedOneBuffered : RemoteClient :=
  { addr := ""
    state := some (ClientState.Connected csSample)
    write_buffer := [[1]]
    write_buffer_bytes_total := 1
    on_identified_callbacks := []
    on_handshake_ack_callbacks := [] }

/-- A Connected client with an empty write buffer. -/
def clientConnectedEmpty : RemoteClient :=
  { addr := ""
    state := some (ClientState.Connected csSample)
    write_buffer := []
    write_buffer_bytes_total := 0
    on_identified_callbacks := []
    on_handshake_ack_callbacks := [] }

/-- An Idle client with an empty write buffer. -/
def clientIdle : RemoteClient :=
  { addr := ""
    state := some (ClientState.Idle 0)
    write_buffer := []
    write_buffer_bytes_total := 0
    on_identified_callbacks := []
    on_handshake_ack_callbacks := [] }

/-- C7 counterexample: a Connected client whose buffer already holds the
entry 0x01 handles a write of payload 0x02 with a sink error; the payload
is appended at the back by buffer_message (send.rs line 57 uses
push_back), so the head of the buffer is the old entry, not the payload,
contradicting the claim that the payload appears at the head. -/
theorem write_sink_error_head_counterexample :
    (clientConnectedOneBuffered.write (some [2]) false).map
        (fun p => p.1.write_buffer) = some [[1], [2]] ∧
    ¬ (clientConnectedOneBuffered.write (some [2]) false).map
        (fun p => p.1.write_buffer.head?) = some (some [2]) := by
  exact ⟨rfl, by decide⟩

/-- C7 amended: on a stream error while Connected the payload is appended
at the back of the write buffer (hence at the head exactly when the
buffer was empty), the state becomes Idle with connection_attempts 1 via
the Disconnected handling, and when the buffer was empty the payload is
the first entry the flush on reconnection sends to the peer. -/
theorem write_sink_error_buffers_at_back (c : RemoteClient)
    (cs cs2 : ConnectionState) (p : Bytes) (net : Nat → Bool)
    (h : c.state = some (ClientState.Connected cs)) (hnet : net 0 = true) :
    c.write (some p) false =
      some ({ c.buffer_message p with state := some (ClientState.Idle 1) },
        Except.ok ()) ∧
    (c.buffer_message p).write_buffer = c.write_buffer ++ [p] ∧
    (c.write_buffer = [] →
      ({ c.buffer_message p with state := some (ClientState.Idle 1) }
          : RemoteClient).write_buffer.head? = some p ∧
      (handleConnect { c.buffer_message p with state := some (ClientState.Idle 1) }
          (some cs2) net).map (fun q => q.2.head?) = some (some p)) := by
  refine ⟨?_, rfl, fun hbuf => ⟨?_, ?_⟩⟩
  · simp [RemoteClient.write, h, handleDisconnected,
      RemoteClient.buffer_message, disconnectedTransition]
  · simp [RemoteClient.buffer_message, hbuf]
  · simp [handleConnect, RemoteClient.flush_buffered_writes,
      RemoteClient.buffer_message, hbuf, flushLoop, hnet]

/-- C7 witness: the amended statement at a Connected client with an empty
buffer, payload 0x02, and an oracle whose first reconnection send
succeeds. -/
theorem write_sink_error_buffers_at_back_witness :
    clientConnectedEmpty.write (some [2]) false =
      some ({ clientConnectedEmpty.buffer_message [2] with
          state := some (ClientState.Idle 1) }, Except.ok ()) ∧
    (clientConnectedEmpty.buffer_message [2]).write_buffer =
      clientConnectedEmpty.write_buffer ++ [[2]] ∧
    (clientConnectedEmpty.write_buffer = [] →
      ({ clientConnectedEmpty.buffer_message [2] with
          state := some (ClientState.Idle 1) }
          : RemoteClient).write_buffer.head? = some [2] ∧
      (handleConnect { clientConnectedEmpty.buffer_message [2] with
          state := some (ClientState.Idle 1) }
          (some csSample) (fun _ => true)).map (fun q => q.2.head?) =
        some (some [2])) :=
  write_sink_error_buffers_at_back clientConnectedEmpty csSample csSample
    [2] (fun _ => true) rfl rfl

/-- A sample BeginHandshake message. -/
def bhMsgSample : BeginHandshakeMsg :=
  { seed_nodes := [], on_handshake_complete := 7 }

/-- C9 counterexample: a Connected client handling BeginHandshake with a
well-serialized handshake frame panics when the framed sink returns a
stream I/O error, because the handler expects the write to succeed
(connect.rs line 172); none models the panic. -/
theorem begin_handshake_stream_error_panic_counterexample :
    handleBeginHandshake clientConnectedOneBuffered bhMsgSample
      (some [9]) false = none := rfl

/-- C9 amended: while Connected, the BeginHandshake handler panics exactly
when the handshake frame serialization yields no bytes or the framed sink
send fails; when both succeed it writes the frame and records the
completion callback without panicking. -/
theorem begin_handshake_panic_characterization (c : RemoteClient)
    (cs : ConnectionState) (msg : BeginHandshakeMsg) (hb : Option Bytes)
    (bytes : Bytes) (netOk : Bool)
    (h : c.state = some (ClientState.Connected cs)) :
    (handleBeginHandshake c msg hb netOk = none ↔
      (hb = none ∨ netOk = false)) ∧
    handleBeginHandshake c msg (some bytes) true =
      some ({ c with on_handshake_ack_callbacks :=
          c.on_handshake_ack_callbacks ++ [msg.on_handshake_complete] },
        [bytes]) := by
  constructor
  · rcases hb with _ | b <;> cases netOk <;> simp [handleBeginHandshake, h]
  · simp [handleBeginHandshake, h]

/-- C9 witness: the amended statement at the Connected sample client with
a serialized frame and a failing sink. -/
theorem begin_handshake_panic_characterization_witness :
    (handleBeginHandshake clientConnectedOneBuffered bhMsgSample
        (some [9]) false = none ↔
      ((some [9] : Option Bytes) = none ∨ false = false)) ∧
    handleBeginHandshake clientConnectedOneBuffered bhMsgSample
        (some [9]) true =
      some ({ clientConnectedOneBuffered with on_handshake_ack_callbacks :=
          clientConnectedOneBuffered.on_handshake_ack_callbacks ++
            [bhMsgSample.on_handshake_complete] },
        [[9]]) :=
  begin_handshake_panic_characterization clientConnectedOneBuffered csSample
    bhMsgSample (some [9]) [9] false rfl

/-- C10: handling BeginHandshake while not Connected returns immediately:
the client (state, write buffer and callback lists) is unchanged, no
frame is written, and the completion callback is dropped rather than
recorded, so a fresh callback is never among those a later handshake
acknowledgement fulfills. -/
theorem begin_handshake_not_connected_noop (c : RemoteClient)
    (msg : BeginHandshakeMsg) (hb : Option Bytes) (netOk : Bool) (ack : Nat)
    (h : clientIsConnected c = false)
    (hfresh : msg.on_handshake_complete ∉ c.on_handshake_ack_callbacks) :
    handleBeginHandshake c msg hb netOk = some (c, []) ∧
    msg.on_handshake_complete ∉
      ((handleBeginHandshake c msg hb netOk).elim []
        fun q => q.1.on_handshake_ack_callbacks) ∧
    msg.on_handshake_complete ∉ (handleHandshakeAcknowledge c ack).2 := by
  have hbh : handleBeginHandshake c msg hb netOk = some (c, []) := by
    rcases hs : c.state with _ | s
    · simp [handleBeginHandshake, hs]
    · cases s with
      | Idle k => simp [handleBeginHandshake, hs]
      | Quarantined x y => simp [handleBeginHandshake, hs]
      | Connected cc => rw [clientIsConnected, hs] at h; simp at h
  refine ⟨hbh, ?_, ?_⟩
  · rw [hbh]
    simpa using hfresh
  · rcases hs : c.state with _ | s
    · simp [handleHandshakeAcknowledge, hs]
    · cases s with
      | Idle k => simp [handleHandshakeAcknowledge, hs]
      | Quarantined x y => simp [handleHandshakeAcknowledge, hs]
      | Connected cc => rw [clientIsConnected, hs] at h; simp at h

/-- C10 witness: the statement at an Idle client with no recorded
callbacks and a fresh callback identifier. -/
theorem begin_handshake_not_connected_noop_witness :
    handleBeginHandshake clientIdle bhMsgSample none true =
      some (clientIdle, []) ∧
    bhMsgSample.on_handshake_complete ∉
      ((handleBeginHandshake clientIdle bhMsgSample none true).elim []
        fun q => q.1.on_handshake_ack_callbacks) ∧
    bhMsgSample.on_handshake_complete ∉
      (handleHandshakeAcknowledge clientIdle 3).2 :=
  begin_handshake_not_connected_noop clientIdle bhMsgSample none true 3
    rfl (by decide)

/-- A sample behavior for concrete instantiation: a counter actor whose
handler adds the message to its state and leaves the status unchanged. -/
def sampleBeh : ActorBehavior Nat Nat where
  started := fun a st => (a, st)
  stopped := fun a st => (a, st)
  handle := fun a st m => (a + m, st)

/-- C2 witness: a mailbox holding user messages 1 and 2, then Stop, then
user message 3; the loop handles exactly 1, 2 and Stop. -/
theorem stop_message_drains_mailbox_witness :
    handledMsgs (actor_loop (withBuiltins sampleBeh) 0
        ([1, 2].map BuiltinMsg.user ++ BuiltinMsg.stop :: [BuiltinMsg.user 3])) =
      [1, 2].map BuiltinMsg.user ++ [BuiltinMsg.stop] ∧
    (∀ st, handleStop st = (ActorStatus.Stopping, ActorStatus.Stopping)) :=
  stop_message_drains_mailbox sampleBeh 0 [1, 2] [BuiltinMsg.user 3]
    (by decide) (fun _ _ _ _ hst => hst)

/-- C3 witness: the write characterization at the Idle sample client with
a serializable message. -/
theorem write_encoding_iff_witness :
    (clientIdle.write (some [1]) true).map Prod.snd =
      some (if (some [1] : Option Bytes).isSome then Except.ok ()
            else Except.error RemoteClientErr.Encoding) ∧
    (clientIdle.state = some (ClientState.Idle 0) →
      clientIdle.write (some [1]) true =
        some (clientIdle.buffer_message [1], Except.ok ())) ∧
    (clientIdle.state = some (ClientState.Quarantined 0 0) →
      clientIdle.write (some [1]) true =
        some (clientIdle.buffer_message [1], Except.ok ())) ∧
    (clientIdle.state = some (ClientState.Connected csSample) →
      clientIdle.write (some [1]) false =
        some ({ clientIdle.buffer_message [1] with
            state := some (ClientState.Idle 1) }, Except.ok ())) :=
  write_encoding_iff clientIdle (some [1]) true [1] 0 0 0 csSample rfl

/-- C5 witness: the buffer-total invariant preserved at the Idle sample
client through buffer_message, flush and write. -/
theorem write_buffer_bytes_total_invariant_witness :
    writeBufferInv (clientIdle.buffer_message [1, 2]) ∧
    writeBufferInv (clientIdle.flush_buffered_writes (fun _ => true)).1 ∧
    writeBufferInv (((clientIdle.write (some [3]) true).map Prod.fst).getD
      clientIdle) :=
  write_buffer_bytes_total_invariant clientIdle [1, 2] (fun _ => true)
    (some [3]) true rfl
